import Mathlib

/-
Verification of the Scatter4 repository (Scripts/data_gen.py and
Scripts/viz.py): a synthetic medical-charge data generator and a static
dashboard builder.  The definitions below are a shallow embedding of the
relevant source fragments; each claim theorem refers to them.
-/

namespace Scatter4

/-! Section 1: the charge-column harmonizer, viz.py lines 60-63.

    charge_col = next((c for c in charges.columns if "charge" in c.lower()), None)
    if not charge_col:
        sys.exit("No column containing the word 'charge' found.")
    charges.rename(columns={charge_col: "charge"}, inplace=True)
-/

/-- Membership of one character list at the head of another, as in
Python substring search. -/
def startsWithL : List Char → List Char → Bool
  | [], _ => true
  | _ :: _, [] => false
  | a :: as, b :: bs => a == b && startsWithL as bs

/-- Substring containment of character lists: Python `needle in hay`. -/
def containsSub (needle : List Char) : List Char → Bool
  | [] => startsWithL needle []
  | c :: cs => startsWithL needle (c :: cs) || containsSub needle cs

/-- Python `s.lower()` restricted to the ASCII column names used here. -/
def lowerChars (s : String) : List Char := s.toList.map Char.toLower

/-- Python `"charge" in c.lower()`. -/
def containsCharge (c : String) : Bool := containsSub "charge".toList (lowerChars c)

/-- viz.py line 60: first column whose name contains "charge"
case-insensitively, `None` when there is none. -/
def charge_col (cols : List String) : Option String := cols.find? containsCharge

/-- Effect of `charges.rename(columns={t: "charge"})` on the column list:
every column named `t` becomes "charge". -/
def renameChargeCols (cols : List String) (t : String) : List String :=
  cols.map (fun c => if c = t then "charge" else c)

/-- viz.py lines 60-63 as one function: `none` models the `sys.exit` branch,
otherwise the renamed column list is returned. -/
def harmonizeCharge (cols : List String) : Option (List String) :=
  match charge_col cols with
  | none => none
  | some t => some (renameChargeCols cols t)

/-- A successful `find?` splits the list at the first hit: everything before
the returned element fails the test. -/
lemma find?_first_split {α : Type} {p : α → Bool} :
    ∀ {l : List α} {a : α}, l.find? p = some a →
      ∃ pre post, l = pre ++ a :: post ∧ ∀ c ∈ pre, p c = false := by
  intro l
  induction l with
  | nil => intro a h; simp [List.find?] at h
  | cons hd tl ih =>
    intro a h
    by_cases hp : p hd
    · rw [List.find?_cons_of_pos tl hp] at h
      obtain rfl : hd = a := by injection h
      exact ⟨[], tl, rfl, by simp⟩
    · rw [List.find?_cons_of_neg tl hp] at h
      obtain ⟨pre, post, heq, hpre⟩ := ih h
      refine ⟨hd :: pre, post, by simp [heq], ?_⟩
      intro c hc
      rcases List.mem_cons.mp hc with rfl | hc
      · simpa using hp
      · exact hpre c hc

/-- When a name occurs exactly once in the column list, the pandas-style
rename of that name is a point update at its unique position. -/
lemma rename_count_one :
    ∀ {cols : List String} {t : String}, cols.count t = 1 →
      ∃ i, i < cols.length ∧ cols[i]? = some t ∧
        renameChargeCols cols t = cols.set i "charge" ∧
        ∀ j, cols[j]? = some t → j = i := by
  intro cols
  induction cols with
  | nil => intro t h; simp at h
  | cons c cs ih =>
    intro t h
    by_cases hc : c = t
    · subst hc
      have hstep : (c :: cs).count c = cs.count c + 1 := by
        simp [List.count_cons]
      have hcs : cs.count c = 0 := by omega
      have hnot : c ∉ cs := List.count_eq_zero.mp hcs
      refine ⟨0, by simp, by simp, ?_, ?_⟩
      · have hmap : cs.map (fun x => if x = c then "charge" else x) = cs := by
          have hid : cs.map (fun x => if x = c then "charge" else x) = cs.map id := by
            apply List.map_congr_left
            intro a ha
            have hne : a ≠ c := fun hac => hnot (hac ▸ ha)
            simp [hne]
          simpa using hid
        simp [renameChargeCols, hmap]
      · intro j hj
        match j with
        | 0 => rfl
        | k + 1 =>
          exfalso
          rw [List.getElem?_cons_succ] at hj
          have hk : k < cs.length := by
            by_contra hk
            rw [List.getElem?_eq_none (by omega)] at hj
            exact Option.noConfusion hj
          rw [List.getElem?_eq_getElem hk] at hj
          have hkt : cs[k] = c := by injection hj
          exact hnot (hkt ▸ List.getElem_mem hk)
    · have hstep : (c :: cs).count t = cs.count t := by
        simp [List.count_cons, hc]
      have hcs : cs.count t = 1 := by omega
      obtain ⟨i, hi, hget, hren, huniq⟩ := ih hcs
      refine ⟨i + 1, ?_, by simpa using hget, ?_, ?_⟩
      · simp only [List.length_cons]
        omega
      · simp only [renameChargeCols, List.map_cons, List.set_cons_succ] at hren ⊢
        rw [if_neg hc, hren]
      · intro j hj
        match j with
        | 0 =>
          exfalso
          have hct : c = t := by simpa using hj
          exact hc hct
        | k + 1 =>
          have hki : k = i := huniq k (by simpa using hj)
          omega

/-- Claim C1: for every input charges table, the harmonizer renames the first
column (in column order) whose name contains the substring "charge"
case-insensitively to the canonical name "charge"; the process exits (result
`none`) if and only if no column name contains that substring; and when
exactly one candidate matches, exactly one column is renamed (the result is a
point update at the unique matching position). -/
theorem claim1_charge_harmonizer (cols : List String) :
    (harmonizeCharge cols = none ↔ ∀ c ∈ cols, containsCharge c = false) ∧
    (∀ t, charge_col cols = some t →
      containsCharge t = true ∧
      (∃ pre post, cols = pre ++ t :: post ∧ ∀ c ∈ pre, containsCharge c = false) ∧
      harmonizeCharge cols = some (renameChargeCols cols t)) ∧
    (cols.countP containsCharge = 1 →
      ∃ t i, charge_col cols = some t ∧ i < cols.length ∧ cols[i]? = some t ∧
        harmonizeCharge cols = some (cols.set i "charge") ∧
        ∀ j, cols[j]? = some t → j = i) := by
  refine ⟨?_, ?_, ?_⟩
  · constructor
    · intro h c hc
      unfold harmonizeCharge at h
      cases hfind : charge_col cols with
      | none =>
        have := List.find?_eq_none.mp hfind
        simpa using this c hc
      | some t => rw [hfind] at h; exact Option.noConfusion h
    · intro h
      have : charge_col cols = none := List.find?_eq_none.mpr (by simpa using h)
      unfold harmonizeCharge
      rw [this]
  · intro t ht
    refine ⟨List.find?_some ht, find?_first_split ht, ?_⟩
    unfold harmonizeCharge
    rw [ht]
  · intro hcount
    cases hfind : charge_col cols with
    | none =>
      exfalso
      have h0 : cols.countP containsCharge = 0 :=
        List.countP_eq_zero.mpr (by simpa using List.find?_eq_none.mp hfind)
      omega
    | some t =>
      have htp : containsCharge t = true := List.find?_some hfind
      have htm : t ∈ cols := List.mem_of_find?_eq_some hfind
      have hle : cols.count t ≤ cols.countP containsCharge := by
        rw [List.count_eq_countP]
        apply List.countP_mono_left
        intro x _ hx
        have : x = t := by simpa using hx
        exact this ▸ htp
      have hpos : 0 < cols.count t := List.count_pos_iff.mpr htm
      have hone : cols.count t = 1 := by omega
      obtain ⟨i, hi, hget, hren, huniq⟩ := rename_count_one hone
      refine ⟨t, i, rfl, hi, hget, ?_, huniq⟩
      show harmonizeCharge cols = some (cols.set i "charge")
      unfold harmonizeCharge
      rw [hfind]
      exact congrArg some hren

/-- Concrete instantiation of claim C1 on a three-column table whose second
column is the unique charge candidate. -/
theorem claim1_witness :
    charge_col ["provider_id", "Total_Charges", "city"] = some "Total_Charges" ∧
    containsCharge "Total_Charges" = true ∧
    harmonizeCharge ["provider_id", "Total_Charges", "city"] =
      some (renameChargeCols ["provider_id", "Total_Charges", "city"] "Total_Charges") := by
  have h : charge_col ["provider_id", "Total_Charges", "city"] = some "Total_Charges" := by
    decide
  have h2 := (claim1_charge_harmonizer ["provider_id", "Total_Charges", "city"]).2.1
    "Total_Charges" h
  exact ⟨h, h2.1, h2.2.2⟩

/-! Section 2: the fact/dimension left join, viz.py line 69:

    df = charges.merge(loc, on="provider_id", how="left")

A fact row is a key paired with its payload; a dimension row is a key paired
with its attributes.  A pandas left merge emits, for each fact row in order,
one output row per matching dimension row, or a single row with null
dimension attributes when no dimension row matches. -/

/-- Output rows a left merge emits for one fact row: one per matching
dimension row, or a single null-padded row when nothing matches. -/
def joinRow {α β : Type} (dim : List (Nat × β)) (r : Nat × α) :
    List ((Nat × α) × Option β) :=
  match dim.filter (fun d => d.1 == r.1) with
  | [] => [(r, none)]
  | m :: ms => (m :: ms).map (fun d => (r, some d.2))

/-- Pandas `how="left"` merge on a single key. -/
def leftJoin {α β : Type} (fact : List (Nat × α)) (dim : List (Nat × β)) :
    List ((Nat × α) × Option β) :=
  fact.flatMap (joinRow dim)

/-- Claim C2: when every fact key matches at most one dimension row (the
dimension key is unique), the left join has exactly as many rows as the fact
table, and a fact row with no match is kept, paired with null dimension
attributes. -/
theorem claim2_left_join {α β : Type} (fact : List (Nat × α)) (dim : List (Nat × β))
    (h : ∀ r ∈ fact, (dim.filter (fun d => d.1 == r.1)).length ≤ 1) :
    (leftJoin fact dim).length = fact.length ∧
    ∀ r ∈ fact, dim.filter (fun d => d.1 == r.1) = [] →
      ((r, (none : Option β)) ∈ leftJoin fact dim) := by
  constructor
  · induction fact with
    | nil => rfl
    | cons r rs ih =>
      have hr := h r (List.mem_cons_self r rs)
      have htl : ∀ x ∈ rs, (dim.filter (fun d => d.1 == x.1)).length ≤ 1 := by
        intro x hx
        exact h x (List.mem_cons_of_mem r hx)
      have hone : (joinRow dim r).length = 1 := by
        rw [joinRow]
        cases hf : dim.filter (fun d => d.1 == r.1) with
        | nil => rfl
        | cons m ms =>
          rw [hf] at hr
          simp at hr
          simp [hr]
      show (leftJoin (r :: rs) dim).length = (r :: rs).length
      rw [leftJoin, List.flatMap_cons, List.length_append]
      have hrest : (rs.flatMap (joinRow dim)).length = rs.length := ih htl
      simp only [List.length_cons]
      rw [hrest, hone]
      omega
  · intro r hr hempty
    rw [leftJoin, List.mem_flatMap]
    refine ⟨r, hr, ?_⟩
    rw [joinRow, hempty]
    exact List.mem_singleton.mpr rfl

/-- Concrete instantiation of claim C2: two fact rows, a one-row dimension
table, one matching and one dangling key; the join keeps both rows and pads
the dangling one with a null. -/
theorem claim2_witness :
    (∀ r ∈ [(1, "a"), (3, "b")],
      (([(1, "X")].filter (fun d => d.1 == r.1)).length ≤ 1)) ∧
    (leftJoin [(1, "a"), (3, "b")] [(1, "X")]).length = 2 ∧
    ((3, "b"), (none : Option String)) ∈ leftJoin [(1, "a"), (3, "b")] [(1, "X")] := by
  have hpre : ∀ r ∈ [(1, "a"), (3, "b")],
      (([(1, "X")].filter (fun d => d.1 == r.1)).length ≤ 1) := by decide
  have hmain := claim2_left_join [(1, "a"), (3, "b")] [(1, "X")] hpre
  refine ⟨hpre, hmain.1, ?_⟩
  exact hmain.2 (3, "b") (by decide) (by decide)

/-! Section 3: figure assembly, viz.py lines 101-142 and 165-171.

    figs = []
    if "sankey" in CFG["figures"]:  figs.append(...)
    if "treemap" in CFG["figures"]: figs.append(...)
    if "heatmap" in CFG["figures"]: figs.append(...)

and one card per figure is appended to cards_html in figs order.  The
membership tests run in the fixed source order sankey, treemap, heatmap,
regardless of the order of the keys inside CFG["figures"]. -/

/-- The supported figure keys in the order their `if` blocks appear. -/
def supportedFigures : List String := ["sankey", "treemap", "heatmap"]

/-- The sequence of chart blocks produced for a given CFG["figures"] list,
identified by figure key; viz.py lines 101-142 followed by 165-171. -/
def buildFigs (figures : List String) : List String :=
  (if "sankey" ∈ figures then ["sankey"] else []) ++
  (if "treemap" ∈ figures then ["treemap"] else []) ++
  (if "heatmap" ∈ figures then ["heatmap"] else [])

/-- Counterexample to claim C3: with CFG["figures"] = ["treemap", "sankey"]
the dashboard emits the blocks in source order sankey, treemap — not in the
configured order treemap, sankey. -/
theorem claim3_counterexample :
    buildFigs ["treemap", "sankey"] = ["sankey", "treemap"] ∧
    (["sankey", "treemap"] : List String) ≠ ["treemap", "sankey"] := by
  constructor
  · decide
  · decide

/-- Claim C3 (amended): the dashboard contains exactly one chart block per
configured supported figure key, but the blocks appear in the fixed source
order sankey, treemap, heatmap rather than in the order the keys are listed
in CFG["figures"]. -/
theorem claim3_blocks_per_key (figures : List String) :
    buildFigs figures = supportedFigures.filter (fun k => figures.contains k) ∧
    ∀ k ∈ supportedFigures,
      (buildFigs figures).count k = if k ∈ figures then 1 else 0 := by
  have h1 : buildFigs figures = supportedFigures.filter (fun k => figures.contains k) := by
    by_cases hs : "sankey" ∈ figures <;>
      by_cases ht : "treemap" ∈ figures <;>
        by_cases hh : "heatmap" ∈ figures <;>
          simp [buildFigs, supportedFigures, hs, ht, hh, List.filter]
  refine ⟨h1, ?_⟩
  intro k hk
  have hk3 : k = "sankey" ∨ k = "treemap" ∨ k = "heatmap" := by
    simpa [supportedFigures] using hk
  by_cases hs : "sankey" ∈ figures <;>
    by_cases ht : "treemap" ∈ figures <;>
      by_cases hh : "heatmap" ∈ figures <;>
        rcases hk3 with rfl | rfl | rfl <;>
          simp [buildFigs, hs, ht, hh, List.count_cons]

/-- Concrete instantiation of the amended claim C3 at the configuration
["treemap", "sankey"] and the supported key "heatmap". -/
theorem claim3_witness :
    "heatmap" ∈ supportedFigures ∧
    (buildFigs ["treemap", "sankey"]).count "heatmap" =
      (if "heatmap" ∈ (["treemap", "sankey"] : List String) then 1 else 0) := by
  have hk : "heatmap" ∈ supportedFigures := by decide
  exact ⟨hk, (claim3_blocks_per_key ["treemap", "sankey"]).2 "heatmap" hk⟩

/-! Section 4: the generated charges table and the KPI file,
data_gen.py lines 98-122.

    charge = round(base, 2)                      (line 103)
    cols = ["provider_id", ..., "charge_amount"] (lines 111-115)
    charges_df = pd.DataFrame(records, columns=cols)
    avg_charge = round(charges_df["charge_amount"].mean(), 2)  (line 120)
-/

/-- A CSV cell: either text or a numeric value (modelled over ℚ). -/
inductive Cell where
  | str : String → Cell
  | num : ℚ → Cell
deriving DecidableEq

/-- The fixed column list of charges.csv, data_gen.py lines 111-115. -/
def chargesCols : List String :=
  ["provider_id", "provider_name", "city", "lat", "lon",
   "payer_type", "procedure_category", "procedure_sub",
   "month", "charge_amount"]

/-- One record appended in the generation loop, data_gen.py lines 105-109. -/
structure ChargeRow where
  provider_id : Nat
  provider_name : String
  city : String
  lat : ℚ
  lon : ℚ
  payer_type : String
  procedure_category : String
  procedure_sub : String
  month : String
  charge_amount : ℚ

/-- The cell list of one record, in the column order of `chargesCols`. -/
def rowCells (r : ChargeRow) : List Cell :=
  [Cell.num r.provider_id, Cell.str r.provider_name, Cell.str r.city,
   Cell.num r.lat, Cell.num r.lon, Cell.str r.payer_type,
   Cell.str r.procedure_category, Cell.str r.procedure_sub,
   Cell.str r.month, Cell.num r.charge_amount]

/-- The rows of charges.csv as written by data_gen.py line 117. -/
def chargesTable (rs : List ChargeRow) : List (List Cell) := rs.map rowCells

/-- The values of a named column of the written table, read back by
position in the header, as an independent recomputation would do. -/
def columnNamed (name : String) (rs : List ChargeRow) : List Cell :=
  (chargesTable rs).map (fun row => row.getD (chargesCols.indexOf name) (Cell.str ""))

/-- Numeric reading of a cell. -/
def cellNum : Cell → ℚ
  | Cell.num q => q
  | Cell.str _ => 0

/-- Arithmetic mean of a list of rationals (0 for the empty list, via
division by zero). -/
def meanQ (l : List ℚ) : ℚ := l.sum / l.length

/-- Python `round(x, 2)` modelled as rounding half up at two decimals. -/
def round2 (q : ℚ) : ℚ := ((⌊q * 100 + 1 / 2⌋ : ℤ) : ℚ) / 100

/-- data_gen.py line 120: the KPI value written to kpi.json. -/
def avg_charge (rs : List ChargeRow) : ℚ :=
  round2 (meanQ (rs.map ChargeRow.charge_amount))

/-- Claim C4: the average_charge value written to kpi.json equals the mean of
the charge_amount column of the table written to charges.csv, recomputed
independently from the written rows and rounded to two decimals. -/
theorem claim4_kpi_average (rs : List ChargeRow) :
    avg_charge rs = round2 (meanQ ((columnNamed "charge_amount" rs).map cellNum)) := by
  have hidx : chargesCols.indexOf "charge_amount" = 9 := by decide
  have hcol : columnNamed "charge_amount" rs =
      rs.map (fun r => Cell.num r.charge_amount) := by
    rw [columnNamed, chargesTable, List.map_map, hidx]
    apply List.map_congr_left
    intro r _
    rfl
  rw [hcol, List.map_map]
  rfl

/-! Section 5: the charge sampling arithmetic, data_gen.py lines 98-103.

    base = random.uniform(2_000, 25_000)
    if cat == "Oncology":     base *= 1.8
    if payer == "Private":    base *= 1.15
    charge = round(base, 2)
-/

/-- data_gen.py lines 98-103: the charge computed from one uniform draw `u`,
the sampled category and the sampled payer. -/
def chargeGen (u : ℚ) (cat payer : String) : ℚ :=
  round2 ((u * (if cat = "Oncology" then 9 / 5 else 1)) *
    (if payer = "Private" then 23 / 20 else 1))

/-- `round2` respects lower bounds with an integral-hundredth bound. -/
lemma round2_lower {q : ℚ} {n : ℤ} (h : (n : ℚ) / 100 ≤ q) : (n : ℚ) / 100 ≤ round2 q := by
  rw [round2]
  have hle : (n : ℚ) ≤ q * 100 + 1 / 2 := by nlinarith
  have hfloor : n ≤ ⌊q * 100 + 1 / 2⌋ := Int.le_floor.mpr hle
  have : (n : ℚ) ≤ ((⌊q * 100 + 1 / 2⌋ : ℤ) : ℚ) := by exact_mod_cast hfloor
  nlinarith

/-- `round2` respects upper bounds with an integral-hundredth bound. -/
lemma round2_upper {q : ℚ} {n : ℤ} (h : q ≤ (n : ℚ) / 100) : round2 q ≤ (n : ℚ) / 100 := by
  rw [round2]
  have hlt : q * 100 + 1 / 2 < ((n + 1 : ℤ) : ℚ) := by push_cast; nlinarith
  have hfloor : ⌊q * 100 + 1 / 2⌋ < n + 1 := Int.floor_lt.mpr hlt
  have hfle : ⌊q * 100 + 1 / 2⌋ ≤ n := by omega
  have : ((⌊q * 100 + 1 / 2⌋ : ℤ) : ℚ) ≤ (n : ℚ) := by exact_mod_cast hfle
  nlinarith

/-- Claim C6: every generated charge is non-negative and lies between the
base lower bound 2000 and the base upper bound 25000 multiplied by the
maximum multiplier product 1.8 * 1.15 (oncology premium times commercial
up-charge); here the two-decimal rounding keeps both bounds exactly since
both are whole hundredths. -/
theorem claim6_charge_bounds (u : ℚ) (cat payer : String)
    (h1 : 2000 ≤ u) (h2 : u ≤ 25000) :
    0 ≤ chargeGen u cat payer ∧
    2000 ≤ chargeGen u cat payer ∧
    chargeGen u cat payer ≤ 25000 * (9 / 5) * (23 / 20) := by
  have hbl : 2000 ≤ (u * (if cat = "Oncology" then 9 / 5 else 1)) *
      (if payer = "Private" then 23 / 20 else 1) := by
    by_cases hc : cat = "Oncology" <;> by_cases hp : payer = "Private" <;>
      simp [hc, hp] <;> nlinarith
  have hbu : (u * (if cat = "Oncology" then 9 / 5 else 1)) *
      (if payer = "Private" then 23 / 20 else 1) ≤ 51750 := by
    by_cases hc : cat = "Oncology" <;> by_cases hp : payer = "Private" <;>
      simp [hc, hp] <;> nlinarith
  have hlow : ((200000 : ℤ) : ℚ) / 100 ≤ chargeGen u cat payer := by
    rw [chargeGen]
    apply round2_lower
    push_cast
    nlinarith
  have hhigh : chargeGen u cat payer ≤ ((5175000 : ℤ) : ℚ) / 100 := by
    rw [chargeGen]
    apply round2_upper
    push_cast
    nlinarith
  refine ⟨?_, ?_, ?_⟩
  · push_cast at hlow
    nlinarith
  · push_cast at hlow
    nlinarith
  · push_cast at hhigh
    nlinarith

/-- Concrete instantiation of claim C6 at the base-range lower endpoint with
the most expensive category and payer. -/
theorem claim6_witness :
    (2000 : ℚ) ≤ 2000 ∧ (2000 : ℚ) ≤ 25000 ∧
    2000 ≤ chargeGen 2000 "Oncology" "Private" ∧
    chargeGen 2000 "Oncology" "Private" ≤ 25000 * (9 / 5) * (23 / 20) := by
  have h := claim6_charge_bounds 2000 "Oncology" "Private" (by norm_num) (by norm_num)
  exact ⟨le_refl 2000, by norm_num, h.2.1, h.2.2⟩

/-! Section 6: generated row counts, data_gen.py lines 72-84 and 88-109.

    for city, lat, lon in CITIES:
        for _ in range(random.randint(3, 4)): providers.append(...)
    for month in MONTHS:                       (12 months)
        for p in providers:
            sampled_cats = random.sample(PROC_CATS, k=random.randint(3, 5))
            for cat in sampled_cats:
                for _ in range(random.randint(8, 15)): records.append(...)

The random draws are abstracted into an oracle; validity of the oracle
states exactly the ranges the randint/sample calls guarantee. -/

/-- The ten configured cities (CFG["cities"], names only). -/
def cfgCities : List String :=
  ["Birmingham", "Montgomery", "Mobile", "Huntsville", "Tuscaloosa",
   "Dothan", "Auburn", "Decatur", "Gadsden", "Florence"]

/-- Number of configured cities. -/
def nCities : Nat := cfgCities.length

/-- CFG["n_months"]. -/
def n_months : Nat := 12

/-- The five procedure categories, keys of CFG["proc_cats"]. -/
def PROC_CATS : List String :=
  ["Cardiology", "Orthopedics", "Oncology", "Diagnostic", "General Surgery"]

/-- One random tape for a generator run: the provider count drawn per city,
the shuffled category order and the category count drawn per (month,
provider), and the row count drawn per (month, provider, category slot). -/
structure GenOracle where
  provPerCity : Nat → Nat
  catPerm : Nat → Nat → List String
  nCats : Nat → Nat → Nat
  nRows : Nat → Nat → Nat → Nat

/-- The ranges data_gen.py draws from: randint(3, 4) providers per city,
sample(PROC_CATS, k=randint(3, 5)) categories, randint(8, 15) rows. -/
def OracleValid (o : GenOracle) : Prop :=
  (∀ i, 3 ≤ o.provPerCity i ∧ o.provPerCity i ≤ 4) ∧
  (∀ m p, (o.catPerm m p).Perm PROC_CATS) ∧
  (∀ m p, 3 ≤ o.nCats m p ∧ o.nCats m p ≤ 5) ∧
  (∀ m p c, 8 ≤ o.nRows m p c ∧ o.nRows m p c ≤ 15)

/-- The provider rows generated by the loop at data_gen.py lines 72-84,
each identified by its city index. -/
def providersList (o : GenOracle) : List Nat :=
  (List.range nCities).flatMap (fun i => List.replicate (o.provPerCity i) i)

/-- random.sample(PROC_CATS, k): the first k entries of a shuffle. -/
def sampledCats (o : GenOracle) (m p : Nat) : List String :=
  (o.catPerm m p).take (o.nCats m p)

/-- The charge rows generated for one (month, provider, category slot),
data_gen.py lines 95-109, identified by their position. -/
def chargeRowsFor (o : GenOracle) (m p ci : Nat) : List Nat :=
  List.range (o.nRows m p ci)

/-- Sum of a pointwise bounded list is bounded by the corresponding
multiples of the length. -/
lemma sum_map_bounds {α : Type} (l : List α) (f : α → Nat) (lo hi : Nat)
    (h : ∀ a ∈ l, lo ≤ f a ∧ f a ≤ hi) :
    lo * l.length ≤ (l.map f).sum ∧ (l.map f).sum ≤ hi * l.length := by
  induction l with
  | nil => simp
  | cons a as ih =>
    have ha := h a (List.mem_cons_self a as)
    have htl := ih (fun x hx => h x (List.mem_cons_of_mem a hx))
    simp only [List.map_cons, List.sum_cons, List.length_cons]
    constructor
    · calc lo * (as.length + 1) = lo * as.length + lo := by ring
        _ ≤ (as.map f).sum + f a := by omega
        _ = f a + (as.map f).sum := by omega
    · calc f a + (as.map f).sum ≤ hi + hi * as.length := by omega
        _ = hi * (as.length + 1) := by ring

/-- Multiplicity of each city index in the provider rows: a city at index
`i` in a duplicate-free index list contributes exactly its drawn count. -/
lemma count_flatMap_replicate (l : List Nat) (f : Nat → Nat) (i : Nat)
    (hnd : l.Nodup) (hi : i ∈ l) :
    ((l.flatMap (fun j => List.replicate (f j) j)).count i) = f i := by
  induction l with
  | nil => simp at hi
  | cons a as ih =>
    rw [List.flatMap_cons, List.count_append]
    rcases List.mem_cons.mp hi with rfl | hmem
    · have hnotin : i ∉ as := (List.nodup_cons.mp hnd).1
      have hzero : (as.flatMap (fun j => List.replicate (f j) j)).count i = 0 := by
        rw [List.count_eq_zero]
        intro hcontra
        obtain ⟨j, hj, hjmem⟩ := List.mem_flatMap.mp hcontra
        have : i = j := List.eq_of_mem_replicate hjmem
        exact hnotin (this ▸ hj)
      rw [hzero, List.count_replicate]
      simp
    · have hne : a ≠ i := by
        rintro rfl
        exact (List.nodup_cons.mp hnd).1 hmem
      rw [List.count_replicate, if_neg (by simpa using hne)]
      have := ih (List.nodup_cons.mp hnd).2 hmem
      omega

/-- Claim C5: for a fixed random tape within the configured ranges, each
city contributes between 3 and 4 provider rows (its exact drawn count), the
provider table has between 3 and 4 times the number of cities in total, and
for each month and provider the sample holds between 3 and 5 procedure
categories with between 8 and 15 charge rows generated per sampled
category. -/
theorem claim5_generated_counts (o : GenOracle) (h : OracleValid o) :
    (∀ i ∈ List.range nCities,
      (providersList o).count i = o.provPerCity i ∧
      3 ≤ (providersList o).count i ∧ (providersList o).count i ≤ 4) ∧
    (3 * nCities ≤ (providersList o).length ∧
      (providersList o).length ≤ 4 * nCities) ∧
    (∀ m p, 3 ≤ (sampledCats o m p).length ∧ (sampledCats o m p).length ≤ 5) ∧
    (∀ m p ci, 8 ≤ (chargeRowsFor o m p ci).length ∧
      (chargeRowsFor o m p ci).length ≤ 15) := by
  obtain ⟨hprov, hperm, hcats, hrows⟩ := h
  refine ⟨?_, ?_, ?_, ?_⟩
  · intro i hi
    have hcount : (providersList o).count i = o.provPerCity i :=
      count_flatMap_replicate (List.range nCities) o.provPerCity i
        (List.nodup_range nCities) hi
    exact ⟨hcount, hcount ▸ (hprov i).1, hcount ▸ (hprov i).2⟩
  · have hlen : (providersList o).length =
        ((List.range nCities).map o.provPerCity).sum := by
      rw [providersList, List.length_flatMap]
      congr 1
      apply List.map_congr_left
      intro a _
      simp [List.length_replicate]
    have hb := sum_map_bounds (List.range nCities) o.provPerCity 3 4
      (fun a _ => hprov a)
    rw [List.length_range] at hb
    rw [hlen]
    exact hb
  · intro m p
    have hlen : (sampledCats o m p).length = min (o.nCats m p) 5 := by
      rw [sampledCats, List.length_take, (hperm m p).length_eq]
      rfl
    have hc := hcats m p
    rw [hlen]
    omega
  · intro m p ci
    have hlen : (chargeRowsFor o m p ci).length = o.nRows m p ci := by
      rw [chargeRowsFor, List.length_range]
    have hr := hrows m p ci
    rw [hlen]
    omega

/-- A concrete random tape at the low end of every configured range. -/
def tapeLow : GenOracle where
  provPerCity := fun _ => 3
  catPerm := fun _ _ => PROC_CATS
  nCats := fun _ _ => 3
  nRows := fun _ _ _ => 8

/-- The low tape draws inside every configured range. -/
lemma tapeLow_valid : OracleValid tapeLow := by
  refine ⟨fun i => ⟨by simp [tapeLow], by simp [tapeLow]⟩, fun m p => List.Perm.refl _,
    fun m p => ⟨by simp [tapeLow], by simp [tapeLow]⟩,
    fun m p c => ⟨by simp [tapeLow], by simp [tapeLow]⟩⟩

/-- Concrete instantiation of claim C5 on the low tape: 30 providers in
total for the 10 cities and a 3-category sample for month 0, provider 0. -/
theorem claim5_witness :
    OracleValid tapeLow ∧
    3 * nCities ≤ (providersList tapeLow).length ∧
    (providersList tapeLow).length ≤ 4 * nCities ∧
    3 ≤ (sampledCats tapeLow 0 0).length ∧ (sampledCats tapeLow 0 0).length ≤ 5 := by
  have h := claim5_generated_counts tapeLow tapeLow_valid
  exact ⟨tapeLow_valid, h.2.1.1, h.2.1.2, (h.2.2.1 0 0).1, (h.2.2.1 0 0).2⟩

/-! Section 7: city / latitude / longitude harmonization, viz.py lines 73-87.

    def _first(cols, pat):
        return next((c for c in cols if re.fullmatch(pat, c, flags=re.I)), None)

    if "provider_city" not in df.columns:
        c = _first(df.columns, r"city(_[xy])?")
        if c: df.rename(columns={c: "provider_city"}, inplace=True)
        else: df["provider_city"] = "Unknown City"

    for want, pat in [("lat", r"lat(_[xy])?"), ("lon", r"(lon|lng)(_?[xy])?")]:
        if want not in df.columns:
            alt = _first(df.columns, pat)
            if alt: df.rename(columns={alt: want}, inplace=True)
-/

/-- A dataframe reduced to what the harmonizer touches: a header and string
cell rows. -/
structure Table where
  cols : List String
  rows : List (List String)
deriving DecidableEq

/-- Lower-casing of an ASCII column name, as re.I matching does. -/
def lowerStr (s : String) : String := String.mk (s.toList.map Char.toLower)

/-- Full match against the regex city(_[xy])? with re.I: exactly the names
that lower-case to one of "city", "city_x", "city_y". -/
def matchesCityPat (c : String) : Bool :=
  ["city", "city_x", "city_y"].contains (lowerStr c)

/-- Full match against lat(_[xy])? with re.I. -/
def matchesLatPat (c : String) : Bool :=
  ["lat", "lat_x", "lat_y"].contains (lowerStr c)

/-- Full match against (lon|lng)(_?[xy])? with re.I: the underscore before
the axis letter is optional. -/
def matchesLonPat (c : String) : Bool :=
  ["lon", "lon_x", "lon_y", "lonx", "lony",
   "lng", "lng_x", "lng_y", "lngx", "lngy"].contains (lowerStr c)

/-- viz.py lines 76-81: ensure a provider_city column, renaming the first
pattern match or defaulting every row to "Unknown City". -/
def harmonizeCity (t : Table) : Table :=
  if "provider_city" ∈ t.cols then t
  else
    match t.cols.find? matchesCityPat with
    | some c => { t with cols := t.cols.map (fun x => if x = c then "provider_city" else x) }
    | none => { cols := t.cols ++ ["provider_city"],
                rows := t.rows.map (fun r => r ++ ["Unknown City"]) }

/-- viz.py lines 83-87 for one (want, pat) pair: rename the first pattern
match when the wanted column is absent; no default value branch exists. -/
def harmonizeCoord (want : String) (pat : String → Bool) (t : Table) : Table :=
  if want ∈ t.cols then t
  else
    match t.cols.find? pat with
    | some c => { t with cols := t.cols.map (fun x => if x = c then want else x) }
    | none => t

/-- The provider_city values of a table, read by header position. -/
def cityColumn (t : Table) : List String :=
  t.rows.map (fun r => r.getD (t.cols.indexOf "provider_city") "")

/-- Claim C7: when no column full-matches the city pattern case-insensitively
and no provider_city column exists, the harmonizer appends a provider_city
column whose value is "Unknown City" in every row; when a column does match,
the first match is renamed to provider_city and the rows are untouched; in
either case a provider_city column exists afterwards. -/
theorem claim7_city_default (t : Table) :
    (("provider_city" ∉ t.cols ∧ (∀ c ∈ t.cols, matchesCityPat c = false) ∧
      (∀ r ∈ t.rows, r.length = t.cols.length)) →
      (harmonizeCity t).cols = t.cols ++ ["provider_city"] ∧
      (harmonizeCity t).rows.length = t.rows.length ∧
      ∀ v ∈ cityColumn (harmonizeCity t), v = "Unknown City") ∧
    (∀ c, "provider_city" ∉ t.cols → t.cols.find? matchesCityPat = some c →
      (harmonizeCity t).cols = t.cols.map (fun x => if x = c then "provider_city" else x) ∧
      (harmonizeCity t).rows = t.rows) ∧
    "provider_city" ∈ (harmonizeCity t).cols := by
  refine ⟨?_, ?_, ?_⟩
  · rintro ⟨habs, hnom, hlen⟩
    have hfind : t.cols.find? matchesCityPat = none :=
      List.find?_eq_none.mpr (by simpa using hnom)
    have hres : harmonizeCity t =
        { cols := t.cols ++ ["provider_city"],
          rows := t.rows.map (fun r => r ++ ["Unknown City"]) } := by
      rw [harmonizeCity, if_neg habs, hfind]
    refine ⟨by rw [hres], by rw [hres]; simp, ?_⟩
    intro v hv
    rw [cityColumn, hres] at hv
    simp only [List.map_map, List.mem_map] at hv
    obtain ⟨r, hr, hval⟩ := hv
    have hidx : (t.cols ++ ["provider_city"]).indexOf "provider_city" = t.cols.length := by
      rw [List.indexOf_append_of_not_mem habs]
      simp [List.indexOf_cons]
    rw [Function.comp_apply, hidx] at hval
    have hget : (r ++ ["Unknown City"])[t.cols.length]? = some "Unknown City" := by
      have := List.getElem?_concat_length r "Unknown City"
      rw [hlen r hr] at this
      exact this
    rw [List.getD_eq_getElem?_getD, hget] at hval
    simpa using hval.symm
  · intro c habs hfind
    have hres : harmonizeCity t =
        { t with cols := t.cols.map (fun x => if x = c then "provider_city" else x) } := by
      rw [harmonizeCity, if_neg habs, hfind]
    exact ⟨by rw [hres], by rw [hres]⟩
  · by_cases habs : "provider_city" ∈ t.cols
    · rw [harmonizeCity, if_pos habs]
      exact habs
    · cases hfind : t.cols.find? matchesCityPat with
      | some c =>
        rw [harmonizeCity, if_neg habs, hfind]
        have hc : c ∈ t.cols := List.mem_of_find?_eq_some hfind
        show "provider_city" ∈ t.cols.map (fun x => if x = c then "provider_city" else x)
        exact List.mem_map.mpr ⟨c, hc, by simp⟩
      | none =>
        rw [harmonizeCity, if_neg habs, hfind]
        simp

/-- Concrete instantiation of claim C7: a merged table with no city-like
column gets the literal default in its only row. -/
theorem claim7_witness :
    ("provider_city" ∉ (["provider_id", "town"] : List String) ∧
      (∀ c ∈ (["provider_id", "town"] : List String), matchesCityPat c = false) ∧
      (∀ r ∈ [["17", "Auburn"]], r.length = (["provider_id", "town"] : List String).length)) ∧
    (harmonizeCity ⟨["provider_id", "town"], [["17", "Auburn"]]⟩).cols =
      ["provider_id", "town", "provider_city"] ∧
    ∀ v ∈ cityColumn (harmonizeCity ⟨["provider_id", "town"], [["17", "Auburn"]]⟩),
      v = "Unknown City" := by
  have hpre : "provider_city" ∉ (["provider_id", "town"] : List String) ∧
      (∀ c ∈ (["provider_id", "town"] : List String), matchesCityPat c = false) ∧
      (∀ r ∈ [["17", "Auburn"]], r.length = (["provider_id", "town"] : List String).length) := by
    refine ⟨by decide, by decide, by decide⟩
  have h := (claim7_city_default ⟨["provider_id", "town"], [["17", "Auburn"]]⟩).1 hpre
  exact ⟨hpre, h.1, h.2.2⟩

/-- Claim C10: when no column full-matches the latitude pattern and no lat
column exists, the lat harmonization step leaves the table entirely
unchanged — no default column is added and no other column is renamed or
modified — so lat may be absent afterwards; likewise for lon. -/
theorem claim10_no_coord_default (t : Table) :
    (("lat" ∉ t.cols ∧ (∀ c ∈ t.cols, matchesLatPat c = false)) →
      harmonizeCoord "lat" matchesLatPat t = t ∧
      "lat" ∉ (harmonizeCoord "lat" matchesLatPat t).cols) ∧
    (("lon" ∉ t.cols ∧ (∀ c ∈ t.cols, matchesLonPat c = false)) →
      harmonizeCoord "lon" matchesLonPat t = t ∧
      "lon" ∉ (harmonizeCoord "lon" matchesLonPat t).cols) := by
  constructor
  · rintro ⟨habs, hnom⟩
    have hfind : t.cols.find? matchesLatPat = none :=
      List.find?_eq_none.mpr (by simpa using hnom)
    have heq : harmonizeCoord "lat" matchesLatPat t = t := by
      rw [harmonizeCoord, if_neg habs, hfind]
    exact ⟨heq, by rw [heq]; exact habs⟩
  · rintro ⟨habs, hnom⟩
    have hfind : t.cols.find? matchesLonPat = none :=
      List.find?_eq_none.mpr (by simpa using hnom)
    have heq : harmonizeCoord "lon" matchesLonPat t = t := by
      rw [harmonizeCoord, if_neg habs, hfind]
    exact ⟨heq, by rw [heq]; exact habs⟩

/-- Concrete instantiation of claim C10: a table with neither coordinate nor
any pattern match is returned unchanged by both coordinate steps. -/
theorem claim10_witness :
    ("lat" ∉ (["provider_id", "charge"] : List String) ∧
      (∀ c ∈ (["provider_id", "charge"] : List String), matchesLatPat c = false)) ∧
    harmonizeCoord "lat" matchesLatPat ⟨["provider_id", "charge"], [["17", "2000.0"]]⟩ =
      ⟨["provider_id", "charge"], [["17", "2000.0"]]⟩ ∧
    "lat" ∉ (harmonizeCoord "lat" matchesLatPat
      ⟨["provider_id", "charge"], [["17", "2000.0"]]⟩).cols := by
  have hpre : "lat" ∉ (["provider_id", "charge"] : List String) ∧
      (∀ c ∈ (["provider_id", "charge"] : List String), matchesLatPat c = false) := by
    refine ⟨by decide, by decide⟩
  have h := (claim10_no_coord_default ⟨["provider_id", "charge"], [["17", "2000.0"]]⟩).1 hpre
  exact ⟨hpre, h.1, h.2⟩

/-! Section 8: the output stage of viz.py, lines 195-226.

    html_path.write_text(html, encoding="utf-8")     (line 197)
    save_png(html_path, png_path)                    (line 219, unconditional)
    if __name__ == "__main__" and "--no-browser" not in sys.argv:
        webbrowser.open(html_path.as_uri())          (lines 224-226)

save_png wraps its whole body in try/except and prints a warning on any
failure (lines 202-217). -/

/-- The externally visible steps the script takes after building the page. -/
inductive VizAction where
  | writeHtml
  | savePng
  | openBrowser
deriving DecidableEq

/-- viz.py lines 195-226: the action sequence as a function of sys.argv. -/
def mainActions (argv : List String) : List VizAction :=
  [VizAction.writeHtml, VizAction.savePng] ++
    (if "--no-browser" ∈ argv then [] else [VizAction.openBrowser])

/-- Counterexample to claim C8: adding or removing --png does not change the
program's behaviour — PNG capture is attempted even when --png is absent, so
whether PNG capture is attempted does not depend on --png; the code checks
only --no-browser. -/
theorem claim8_counterexample :
    mainActions ["--png"] = mainActions [] ∧
    VizAction.savePng ∈ mainActions [] ∧
    "--png" ∈ (["--png"] : List String) ∧
    "--png" ∉ ([] : List String) := by
  refine ⟨by decide, by decide, by decide, by decide⟩

/-- Claim C8 (amended): the CLI surface consists of exactly one sentinel
flag, --no-browser, checked by presence in the argument list; PNG capture is
attempted unconditionally, whether or not --png appears, and the behaviour
depends on the arguments only through the presence of --no-browser. -/
theorem claim8_cli_surface (argv argv2 : List String)
    (h : ("--no-browser" ∈ argv) ↔ ("--no-browser" ∈ argv2)) :
    VizAction.savePng ∈ mainActions argv ∧
    (VizAction.openBrowser ∈ mainActions argv ↔ "--no-browser" ∉ argv) ∧
    mainActions argv = mainActions argv2 := by
  refine ⟨by simp [mainActions], ?_, ?_⟩
  · by_cases hb : "--no-browser" ∈ argv <;> simp [mainActions, hb]
  · by_cases hb : "--no-browser" ∈ argv
    · rw [mainActions, mainActions, if_pos hb, if_pos (h.mp hb)]
    · rw [mainActions, mainActions, if_neg hb, if_neg (fun hc => hb (h.mpr hc))]

/-- Concrete instantiation of the amended claim C8: ["--png"] and [] contain
--no-browser equally (not at all) and produce identical behaviour. -/
theorem claim8_witness :
    (("--no-browser" ∈ (["--png"] : List String)) ↔
      ("--no-browser" ∈ ([] : List String))) ∧
    VizAction.savePng ∈ mainActions ["--png"] ∧
    mainActions ["--png"] = mainActions [] := by
  have h : ("--no-browser" ∈ (["--png"] : List String)) ↔
      ("--no-browser" ∈ ([] : List String)) := by
    constructor
    · intro hx; exact absurd hx (by decide)
    · intro hx; exact absurd hx (by decide)
  have hm := claim8_cli_surface ["--png"] [] h
  exact ⟨h, hm.1, hm.2.2⟩

/-! Section 9: PNG capture failure tolerance, viz.py lines 202-219. -/

/-- The ways the PNG capture body can fail: selenium import/browser missing,
webdriver startup error, or a navigation/screenshot error. -/
inductive PngError where
  | browserMissing
  | driverError : String → PngError
  | screenshotError : String → PngError
deriving DecidableEq

/-- State of the output directory and console as the script sees it. -/
structure VizState where
  htmlFile : Option String
  pngFile : Option String
  warnings : List String
  browserOpened : Bool
deriving DecidableEq

/-- viz.py lines 202-217: the whole body runs inside try/except; a successful
attempt stores the screenshot, any failure prints the warning and returns
normally. -/
def save_png (attempt : Except PngError String) (st : VizState) : VizState :=
  match attempt with
  | Except.ok shot => { st with pngFile := some shot }
  | Except.error _ => { st with warnings := st.warnings ++ ["PNG not created"] }

/-- viz.py line 197: the state right after html_path.write_text. -/
def postWriteState (html : String) : VizState :=
  { htmlFile := some html, pngFile := none, warnings := [], browserOpened := false }

/-- viz.py lines 195-226: write the HTML, attempt the PNG, then open the
browser unless --no-browser was passed. -/
def vizPipeline (html : String) (attempt : Except PngError String)
    (argv : List String) : VizState :=
  let st2 := save_png attempt (postWriteState html)
  if "--no-browser" ∈ argv then st2 else { st2 with browserOpened := true }

/-- Claim C9: every failure during optional PNG capture is caught by
save_png, which records the warning and returns a normal state, so execution
continues (the browser step still runs as configured); the HTML file already
written is unchanged by the failure, and no PNG is produced. -/
theorem claim9_png_failure_tolerated (html : String) (e : PngError)
    (attempt : Except PngError String) (argv : List String) :
    (∀ st : VizState, save_png (Except.error e) st =
      { st with warnings := st.warnings ++ ["PNG not created"] }) ∧
    (save_png attempt (postWriteState html)).htmlFile = some html ∧
    (vizPipeline html attempt argv).htmlFile = some html ∧
    (vizPipeline html (Except.error e) argv).pngFile = none ∧
    (vizPipeline html (Except.error e) argv).warnings = ["PNG not created"] ∧
    (vizPipeline html (Except.error e) argv).browserOpened =
      !(decide ("--no-browser" ∈ argv)) := by
  refine ⟨fun st => rfl, ?_, ?_, ?_, ?_, ?_⟩ <;>
    by_cases hb : "--no-browser" ∈ argv <;>
      cases attempt <;>
        simp [vizPipeline, save_png, postWriteState, hb]

end Scatter4
